import Mathlib

/-!
Shallow embedding of the linear-task-sync reconciliation engine.

The repository contains two near-duplicate variants of the same engine:
* `src/unnamed/part_000` — the static-inference variant (labels are derived
  from the project identifier by `inferCoreSystemsLabel` / `inferCoreAreasLabel`);
* `src/sync_v1.mts` — the lookup-table variant (labels come from an external
  mapping document keyed by project name).

Pure string manipulation is modelled over `List Char` (`String.data`) so that
every definition reduces inside the kernel.  JavaScript `NaN` arising from
`parseInt` on a non-numeric string is modelled by `Option Int` (`none` = NaN),
with `jsNumToString none = "NaN"` mirroring number-to-string coercion.
Network effects are modelled by an environment record holding the outcome of
each remote operation; a run produces the list of requests it issued
(its event trace) together with the logged outcome of each update attempt.
-/

/-- JS whitespace test used by `parseInt` before reading digits. -/
def jsWhitespace (c : Char) : Bool :=
  (c == ' ') || (c == '\t') || (c == '\n') || (c == '\r')

/-- Value of a list of decimal digit characters, most significant first. -/
def digitsToNat (ds : List Char) : Nat :=
  ds.foldl (fun a c => a * 10 + (c.toNat - 48)) 0

/-- JS `parseInt(s)` in base 10: skip leading whitespace, read an optional
sign and then the maximal run of leading decimal digits; `none` models `NaN`
(no digits found). -/
def parseIntJS (s : String) : Option Int :=
  let cs := s.data.dropWhile jsWhitespace
  match cs with
  | '-' :: rest =>
    let ds := rest.takeWhile Char.isDigit
    if ds.isEmpty then none else some (-(digitsToNat ds : Int))
  | '+' :: rest =>
    let ds := rest.takeWhile Char.isDigit
    if ds.isEmpty then none else some ((digitsToNat ds : Int))
  | _ =>
    let ds := cs.takeWhile Char.isDigit
    if ds.isEmpty then none else some ((digitsToNat ds : Int))

/-- JS number-to-string coercion on the `Option Int` model of JS numbers:
`none` (NaN) prints as `"NaN"`. -/
def jsNumToString : Option Int → String
  | none => "NaN"
  | some n => toString n

/-- `s.substring(0, n)` / the first `n` characters of `s`. -/
def strTake (s : String) (n : Nat) : String :=
  String.mk (s.data.take n)

/-- `s.slice(n)` for a non-negative index: drop the first `n` characters. -/
def strDrop (s : String) (n : Nat) : String :=
  String.mk (s.data.drop n)

/-- `s.padStart(3, c)`: left-pad to length 3 (JS `padStart(3, '0')` with
`c = '0'` in the source). -/
def padStart3 (s : String) (c : Char) : String :=
  if 3 ≤ s.length then s else String.mk (List.replicate (3 - s.length) c) ++ s

/-- Character-level splitter behind JS `String.prototype.split('.')`:
always returns at least one (possibly empty) group. -/
def splitCharsOnDot : List Char → List (List Char)
  | [] => [[]]
  | c :: cs =>
    let rest := splitCharsOnDot cs
    if c == '.' then [] :: rest
    else
      match rest with
      | [] => [[c]]
      | g :: gs => (c :: g) :: gs

/-- JS `s.split('.')`. -/
def splitOnDot (s : String) : List String :=
  (splitCharsOnDot s.data).map String.mk

/-- Errors thrown by the engine (`throw new Error(...)` sites and the
`process.exit(1)` of the mapping loader). -/
inductive SyncError where
  /-- `Invalid projectIdentifier format` thrown by the inference functions. -/
  | invalidIdentifier (projectIdentifier : String)
  /-- HTTP non-2xx from `graphqlRequest`. -/
  | httpError (status : Nat)
  /-- `GraphQL request failed` (server-reported error list). -/
  | graphqlError
  /-- `Unexpected response format: missing data` from a fetch loop. -/
  | missingData
  /-- Failure loading `project_label_mappings.json` (models `process.exit(1)`). -/
  | mappingLoadError
deriving DecidableEq

/-- `interface Label { id, name }`. -/
structure Label where
  id : String
  name : String
deriving DecidableEq

/-- The `project` field of an issue (`{ id, name, identifier } | null`;
the lookup-table variant ignores `identifier`). -/
structure Project where
  id : String
  name : String
  identifier : String
deriving DecidableEq

/-- The `team` field of an issue (never consulted by the engine). -/
structure Team where
  id : String
  name : String
deriving DecidableEq

/-- `interface Issue`; `labels` stands for `labels.nodes` of the GraphQL shape. -/
structure Issue where
  id : String
  title : String
  identifier : String
  labels : List Label
  project : Option Project
  team : Team
deriving DecidableEq

/-- `function inferCoreSystemsLabel(projectIdentifier)` of `part_000`:
split on dots, `parseInt` the first 3 characters of the first segment,
then format `[lower-upper]` with 3-digit zero padding.  A NaN parse
propagates into the output text rather than raising. -/
def inferCoreSystemsLabel (projectIdentifier : String) : Except SyncError String :=
  if projectIdentifier = "" then
    Except.error (SyncError.invalidIdentifier projectIdentifier)
  else
    let parts := splitOnDot projectIdentifier
    if parts.length < 1 then
      Except.error (SyncError.invalidIdentifier projectIdentifier)
    else
      let systemNumber := parseIntJS (strTake (parts.headD "") 3)
      let lowerBound := systemNumber.map (fun n => Int.fdiv n 100 * 100)
      let upperBound := lowerBound.map (fun n => n + 99)
      Except.ok ("[" ++ padStart3 (jsNumToString lowerBound) '0' ++ "-" ++
        padStart3 (jsNumToString upperBound) '0' ++ "]")

/-- `function inferCoreAreasLabel(projectIdentifier)` of `part_000`:
`"[" + parts[0].slice(1, 4) + "]"`. -/
def inferCoreAreasLabel (projectIdentifier : String) : Except SyncError String :=
  if projectIdentifier = "" then
    Except.error (SyncError.invalidIdentifier projectIdentifier)
  else
    let parts := splitOnDot projectIdentifier
    if parts.length < 1 then
      Except.error (SyncError.invalidIdentifier projectIdentifier)
    else
      let areaNumber := strTake (strDrop (parts.headD "") 1) 3
      Except.ok ("[" ++ areaNumber ++ "]")

example : inferCoreSystemsLabel "123.45" = Except.ok "[100-199]" := rfl
example : inferCoreSystemsLabel "234.5" = Except.ok "[200-299]" := rfl
example : inferCoreSystemsLabel "abc.def" = Except.ok "[NaN-NaN]" := rfl
example : inferCoreAreasLabel "abc.def" = Except.ok "[bc]" := rfl
example : inferCoreAreasLabel "234" = Except.ok "[34]" := rfl
example : inferCoreAreasLabel "123.45" = Except.ok "[23]" := rfl
example : inferCoreSystemsLabel "" = Except.error (SyncError.invalidIdentifier "") := rfl

/-- `const RETRY_ATTEMPTS = 3`. -/
def RETRY_ATTEMPTS : Nat := 3

/-- `const RETRY_DELAY = 1000` (milliseconds slept between attempts). -/
def RETRY_DELAY : Nat := 1000

/-- `async function fetchWithRetry(operation, attempts = RETRY_ATTEMPTS)`.
The operation is modelled as a function from the call index (how many calls
were already made) to the outcome of that call; the result pairs the final
outcome with the number of `RETRY_DELAY` sleeps performed: try the
operation, and on failure either re-throw (`attempts <= 1`) or sleep once
and retry with `attempts - 1`. -/
def fetchWithRetry {ε α : Type} (op : Nat → Except ε α) (attempts callIdx : Nat) :
    Except ε α × Nat :=
  match op callIdx with
  | Except.ok v => (Except.ok v, 0)
  | Except.error e =>
    if h : attempts ≤ 1 then (Except.error e, 0)
    else
      let r := fetchWithRetry op (attempts - 1) (callIdx + 1)
      (r.1, r.2 + 1)
termination_by attempts
decreasing_by omega

/-- `Set.prototype.add` on the insertion-ordered set model: append the element
unless already present. -/
def setAdd (l : List String) (x : String) : List String :=
  if x ∈ l then l else l ++ [x]

/-- `new Set(xs)` as an insertion-ordered duplicate-free list. -/
def setOfList (xs : List String) : List String :=
  xs.foldl setAdd []

/-- `acc[k] = v` on a JS object modelled as an insertion-ordered association
list: re-assignment keeps the original key position. -/
def assocSet (m : List (String × String)) (k v : String) : List (String × String) :=
  if m.any (fun p => p.1 == k) then
    m.map (fun p => if p.1 == k then (k, v) else p)
  else m ++ [(k, v)]

/-- `workspaceLabels.reduce((acc, label) => { acc[label.name] = label.id; ... }, {})`. -/
def buildLabelNameToId (workspaceLabels : List Label) : List (String × String) :=
  workspaceLabels.foldl (fun acc label => assocSet acc label.name label.id) []

/-- `labelNameToId[name]`: `none` models `undefined`. -/
def lookupId (m : List (String × String)) (name : String) : Option String :=
  (m.find? (fun p => p.1 == name)).map (fun p => p.2)

/-- One conditional add of the apply loop:
`if (labelId) { newLabelIds.add(labelId) } else { warn }` — note the JS
truthiness test also rejects an empty-string id. -/
def addLabelIdIfFound (ids : List String) : Option String → List String
  | some labelId => if labelId = "" then ids else setAdd ids labelId
  | none => ids

/-- The label-id set the apply loop submits for one issue: the existing id
set extended with the (truthy) workspace ids of the two required label
names.  Shared by both engine variants. -/
def staticTargetLabelIds (m : List (String × String)) (issue : Issue)
    (coreSystemsLabel coreAreasLabel : String) : List String :=
  let existingLabelIds := setOfList (issue.labels.map Label.id)
  addLabelIdIfFound (addLabelIdIfFound existingLabelIds (lookupId m coreSystemsLabel))
    (lookupId m coreAreasLabel)

/-- What `updateIssue` logs for one issue, as the engine observes it. -/
inductive UpdateOutcome where
  /-- `success: true`: `Successfully updated issue ...`. -/
  | successLogged
  /-- Well-formed response with `success: false`: `Failed to update issue ...`. -/
  | failureLogged
  /-- Response without `data.issueUpdate`: `Unexpected response format ...`. -/
  | unexpectedLogged
  /-- An exception escaped the retries and was caught: `Error updating issue ...`. -/
  | errorLogged
deriving DecidableEq

/-- The payload of a well-formed `issueUpdate` response. -/
structure UpdateIssuePayload where
  success : Bool
  issue : Issue
deriving DecidableEq

/-- A request the engine sends to a collaborator, in emission order. -/
inductive Event where
  /-- The issue-listing fetch phase ran (at least one network request). -/
  | fetchIssuesReq
  /-- The label-listing fetch phase ran. -/
  | fetchLabelsReq
  /-- The mapping document was read (lookup-table variant only). -/
  | loadMappingReq
  /-- `issueUpdate` mutation submitted for `issueId` with `labelIds`. -/
  | updateReq (issueId : String) (labelIds : List String)
deriving DecidableEq

/-- Recognizer for the issue-listing event. -/
def Event.isFetchIssuesReq : Event → Bool
  | Event.fetchIssuesReq => true
  | _ => false

/-- Recognizer for update-mutation events. -/
def Event.isUpdateReq : Event → Bool
  | Event.updateReq _ _ => true
  | _ => false

/-- The update-mutation requests of a trace. -/
def updateEvents (evs : List Event) : List Event :=
  evs.filter Event.isUpdateReq

/-- Environment of the static-inference variant (`part_000`): the outcome of
each remote phase.  `updateResult issueId labelIds` is the outcome of the
(retry-wrapped) `issueUpdate` call: `Except.error` is an exception escaping
the retries, `Except.ok none` a response lacking `data.issueUpdate`, and
`Except.ok (some p)` a well-formed response. -/
structure EnvStatic where
  issuesResult : Except SyncError (List Issue)
  labelsResult : Except SyncError (List Label)
  updateResult : String → List String → Except SyncError (Option UpdateIssuePayload)

/-- `async function updateIssue(issue, labelIds)`: every path is caught and
logged, so it always returns an outcome and never throws. -/
def updateIssue (env : EnvStatic) (issue : Issue) (labelIds : List String) : UpdateOutcome :=
  match env.updateResult issue.id labelIds with
  | Except.error _ => UpdateOutcome.errorLogged
  | Except.ok none => UpdateOutcome.unexpectedLogged
  | Except.ok (some r) =>
    if r.success then UpdateOutcome.successLogged else UpdateOutcome.failureLogged

/-- The filter callback of `issues.filter(...)` in the static variant:
issues with no project or a falsy (empty) `project.identifier` are skipped;
otherwise the issue needs an update when either inferred label name is
missing from its current label names.  An inference throw propagates
(`Except.error`), mirroring an exception escaping the callback. -/
def staticNeedsUpdate (issue : Issue) : Except SyncError Bool :=
  match issue.project with
  | none => Except.ok false
  | some p =>
    if p.identifier = "" then Except.ok false
    else
      match inferCoreSystemsLabel p.identifier with
      | Except.error e => Except.error e
      | Except.ok coreSystemsLabel =>
        match inferCoreAreasLabel p.identifier with
        | Except.error e => Except.error e
        | Except.ok coreAreasLabel =>
          let existingLabelNames := issue.labels.map Label.name
          Except.ok (!(existingLabelNames.contains coreSystemsLabel) ||
            !(existingLabelNames.contains coreAreasLabel))

/-- `Array.prototype.filter` with a throwing callback: the first exception
aborts the whole filter. -/
def filterE {ε α : Type} (p : α → Except ε Bool) : List α → Except ε (List α)
  | [] => Except.ok []
  | x :: xs =>
    match p x with
    | Except.error e => Except.error e
    | Except.ok b =>
      match filterE p xs with
      | Except.error e => Except.error e
      | Except.ok rest => Except.ok (if b then x :: rest else rest)

/-- The apply loop of the static variant over the planned issues.  Returns
the emitted update requests, the logged outcome of each submitted update,
and the exception (if any) that aborted the loop; requests emitted before
an abort are kept. -/
def applyStatic (env : EnvStatic) (m : List (String × String)) :
    List Issue → List Event × List UpdateOutcome × Option SyncError
  | [] => ([], [], none)
  | issue :: rest =>
    match issue.project with
    | none => applyStatic env m rest
    | some p =>
      if p.identifier = "" then applyStatic env m rest
      else
        match inferCoreSystemsLabel p.identifier, inferCoreAreasLabel p.identifier with
        | Except.error e, _ => ([], [], some e)
        | Except.ok _, Except.error e => ([], [], some e)
        | Except.ok coreSystemsLabel, Except.ok coreAreasLabel =>
          let existingLabelIds := setOfList (issue.labels.map Label.id)
          let labelIdsToUpdate := staticTargetLabelIds m issue coreSystemsLabel coreAreasLabel
          if labelIdsToUpdate.length ≠ existingLabelIds.length then
            let outcome := updateIssue env issue labelIdsToUpdate
            let r := applyStatic env m rest
            (Event.updateReq issue.id labelIdsToUpdate :: r.1, outcome :: r.2.1, r.2.2)
          else
            applyStatic env m rest

/-- The observable result of one `syncTasks()` run: the requests issued, in
order, and the logged outcome of each submitted update. -/
structure RunResult where
  events : List Event
  outcomes : List UpdateOutcome
deriving DecidableEq

/-- `async function syncTasks()` of the static variant (`part_000`): fetch
issues, fetch labels, build the name-to-id map, plan, apply.  The enclosing
`try`/`catch` turns any thrown error into a log line, so a fetch failure
ends the run with the requests already issued and no updates attempted. -/
def syncTasksStatic (env : EnvStatic) : RunResult :=
  match env.issuesResult with
  | Except.error _ => ⟨[Event.fetchIssuesReq], []⟩
  | Except.ok issues =>
    match env.labelsResult with
    | Except.error _ => ⟨[Event.fetchIssuesReq, Event.fetchLabelsReq], []⟩
    | Except.ok workspaceLabels =>
      let m := buildLabelNameToId workspaceLabels
      match filterE staticNeedsUpdate issues with
      | Except.error _ => ⟨[Event.fetchIssuesReq, Event.fetchLabelsReq], []⟩
      | Except.ok issuesToUpdate =>
        let r := applyStatic env m issuesToUpdate
        ⟨[Event.fetchIssuesReq, Event.fetchLabelsReq] ++ r.1, r.2.1⟩

/-- The top level of `part_000`: `syncTasks().catch(...)` appears twice, so
one process run performs two reconciliation passes; both passes are modelled
against the same environment and their traces concatenated. -/
def mainStatic (env : EnvStatic) : List Event :=
  (syncTasksStatic env).events ++ (syncTasksStatic env).events

/-! Helper lemmas on strings and the inference functions. -/

theorem splitCharsOnDot_ne_nil : ∀ cs : List Char, splitCharsOnDot cs ≠ []
  | [] => by simp [splitCharsOnDot]
  | c :: cs => by
    have ih := splitCharsOnDot_ne_nil cs
    unfold splitCharsOnDot
    split
    · simp
    · cases h : splitCharsOnDot cs with
      | nil => exact absurd h ih
      | cons g gs => simp

theorem splitOnDot_length_pos (s : String) : 0 < (splitOnDot s).length := by
  unfold splitOnDot
  cases h : splitCharsOnDot s.data with
  | nil => exact absurd h (splitCharsOnDot_ne_nil s.data)
  | cons g gs => simp

theorem strTake_length (s : String) (n : Nat) : (strTake s n).length = min n s.length := by
  show (s.data.take n).length = min n s.data.length
  simp [List.length_take]

theorem strDrop_length (s : String) (n : Nat) : (strDrop s n).length = s.length - n := by
  show (s.data.drop n).length = s.data.length - n
  simp [List.length_drop]

/-- For a non-empty identifier the static system inference never throws:
it returns the formatted range label built from the `parseInt` of the first
3 characters of the leading dot segment. -/
theorem inferCoreSystemsLabel_eq (s : String) (h0 : s ≠ "") :
    inferCoreSystemsLabel s =
      Except.ok ("[" ++
        padStart3 (jsNumToString ((parseIntJS (strTake ((splitOnDot s).headD "") 3)).map
          (fun n => Int.fdiv n 100 * 100))) '0' ++ "-" ++
        padStart3 (jsNumToString (((parseIntJS (strTake ((splitOnDot s).headD "") 3)).map
          (fun n => Int.fdiv n 100 * 100)).map (fun n => n + 99))) '0' ++ "]") := by
  have hlen : ¬ (splitOnDot s).length < 1 := by
    have := splitOnDot_length_pos s
    omega
  simp only [inferCoreSystemsLabel, if_neg h0, if_neg hlen]

/-- For a non-empty identifier the static area inference never throws:
it returns the bracketed `slice(1, 4)` of the leading dot segment. -/
theorem inferCoreAreasLabel_eq (s : String) (h0 : s ≠ "") :
    inferCoreAreasLabel s =
      Except.ok ("[" ++ strTake (strDrop ((splitOnDot s).headD "") 1) 3 ++ "]") := by
  have hlen : ¬ (splitOnDot s).length < 1 := by
    have := splitOnDot_length_pos s
    omega
  simp only [inferCoreAreasLabel, if_neg h0, if_neg hlen]

theorem fdivMulCast (n : Nat) : Int.fdiv (n : Int) 100 * 100 = ((n / 100 * 100 : Nat) : Int) := by
  rw [show ((100 : Int) = ((100 : Nat) : Int)) by norm_num, ← Int.ofNat_fdiv]
  push_cast
  ring

theorem castAdd99 (m : Nat) : ((m : Nat) : Int) + 99 = ((m + 99 : Nat) : Int) := by
  push_cast
  ring

theorem jsNumToString_cast (m : Nat) : jsNumToString (some ((m : Nat) : Int)) = toString m := rfl

/-- Claim C3: for a project identifier whose first dot segment has a
3-character prefix parsing to the natural number `n`, the static system
inference returns the bracketed zero-padded range
`[floor(n/100)*100 - floor(n/100)*100+99]`; in particular
`inferCoreSystemsLabel "123.45" = "[100-199]"` and the identifier `"234.5"`
yields `"[200-299]"`. -/
theorem claimC3_system_label_range (s : String) (n : Nat) (h0 : s ≠ "")
    (hn : parseIntJS (strTake ((splitOnDot s).headD "") 3) = some ((n : Nat) : Int)) :
    inferCoreSystemsLabel s =
      Except.ok ("[" ++ padStart3 (toString (n / 100 * 100)) '0' ++ "-" ++
        padStart3 (toString (n / 100 * 100 + 99)) '0' ++ "]")
    ∧ inferCoreSystemsLabel "123.45" = Except.ok "[100-199]"
    ∧ inferCoreSystemsLabel "234.5" = Except.ok "[200-299]" := by
  refine ⟨?_, rfl, rfl⟩
  rw [inferCoreSystemsLabel_eq s h0, hn]
  simp only [Option.map_some', fdivMulCast, castAdd99, jsNumToString_cast]

/-- Witness for C3 at the concrete identifier `"123.45"` (`n = 123`). -/
theorem claimC3_system_label_range_witness :
    inferCoreSystemsLabel "123.45" =
      Except.ok ("[" ++ padStart3 (toString (123 / 100 * 100)) '0' ++ "-" ++
        padStart3 (toString (123 / 100 * 100 + 99)) '0' ++ "]") :=
  (claimC3_system_label_range "123.45" 123 (by decide) rfl).1

/-- Claim C4 counterexample: `"abc.def"` is a non-empty identifier whose
leading segment is non-numeric, yet neither static inference function
raises — the system inference returns the label `"[NaN-NaN]"` and the area
inference returns `"[bc]"`. -/
theorem claimC4_counterexample :
    inferCoreSystemsLabel "abc.def" = Except.ok "[NaN-NaN]"
    ∧ inferCoreAreasLabel "abc.def" = Except.ok "[bc]"
    ∧ (inferCoreSystemsLabel "abc.def").isOk = true
    ∧ (inferCoreAreasLabel "abc.def").isOk = true :=
  ⟨rfl, rfl, rfl, rfl⟩

/-- Claim C4 (amended): both static inference functions raise
`InvalidIdentifierError` on the empty project identifier, but a non-numeric
leading segment is not rejected: the `NaN` from `parseInt` propagates and
the system inference returns `"[NaN-NaN]"`, while the area inference simply
returns the bracketed slice of the segment. -/
theorem claimC4_empty_raises_nonnumeric_does_not (s : String) (h0 : s ≠ "")
    (hNaN : parseIntJS (strTake ((splitOnDot s).headD "") 3) = none) :
    inferCoreSystemsLabel "" = Except.error (SyncError.invalidIdentifier "")
    ∧ inferCoreAreasLabel "" = Except.error (SyncError.invalidIdentifier "")
    ∧ inferCoreSystemsLabel s = Except.ok "[NaN-NaN]"
    ∧ inferCoreAreasLabel s =
        Except.ok ("[" ++ strTake (strDrop ((splitOnDot s).headD "") 1) 3 ++ "]") := by
  refine ⟨rfl, rfl, ?_, inferCoreAreasLabel_eq s h0⟩
  rw [inferCoreSystemsLabel_eq s h0, hNaN]
  rfl

/-- Witness for the amended C4 at the concrete identifier `"x1"`. -/
theorem claimC4_empty_raises_nonnumeric_does_not_witness :
    inferCoreSystemsLabel "x1" = Except.ok "[NaN-NaN]"
    ∧ inferCoreAreasLabel "x1" = Except.ok "[1]" :=
  ⟨(claimC4_empty_raises_nonnumeric_does_not "x1" (by decide) rfl).2.2.1,
   (claimC4_empty_raises_nonnumeric_does_not "x1" (by decide) rfl).2.2.2⟩

/-- Claim C5: for every non-empty project identifier the static area
inference returns `"[" ++ s ++ "]"` where `s` is the `slice(1, 4)` of the
first dot segment — at most 3 characters starting at offset 1, with fewer
than 3 characters whenever the segment is shorter than 4; for segment
`"234"` the result is `"[34]"`. -/
theorem claimC5_area_label_slice (s : String) (h0 : s ≠ "") :
    inferCoreAreasLabel s =
      Except.ok ("[" ++ strTake (strDrop ((splitOnDot s).headD "") 1) 3 ++ "]")
    ∧ (strTake (strDrop ((splitOnDot s).headD "") 1) 3).length ≤ 3
    ∧ (((splitOnDot s).headD "").length < 4 →
        (strTake (strDrop ((splitOnDot s).headD "") 1) 3).length < 3)
    ∧ inferCoreAreasLabel "234" = Except.ok "[34]" := by
  refine ⟨inferCoreAreasLabel_eq s h0, ?_, ?_, rfl⟩
  · rw [strTake_length]
    omega
  · intro hshort
    rw [strTake_length, strDrop_length]
    omega

/-- Witness for C5 at the concrete identifier `"234"`. -/
theorem claimC5_area_label_slice_witness :
    inferCoreAreasLabel "234" =
      Except.ok ("[" ++ strTake (strDrop ((splitOnDot "234").headD "") 1) 3 ++ "]") :=
  (claimC5_area_label_slice "234" (by decide)).1

/-- `interface ProjectLabelMapping`: the two required label names of a
project under the lookup-table variant (the `001 Core Systems` and
`002 Core Areas` fields). -/
structure ProjectLabelMapping where
  coreSystems : String
  coreAreas : String
deriving DecidableEq

/-- `PROJECT_LABEL_MAPPING[projectName]`. -/
def lookupMapping (mapping : List (String × ProjectLabelMapping)) (name : String) :
    Option ProjectLabelMapping :=
  (mapping.find? (fun p => p.1 == name)).map (fun p => p.2)

/-- Environment of the lookup-table variant (`sync_v1.mts`); `mappingResult`
models `loadProjectLabelMappings()`, whose failure is `process.exit(1)`. -/
structure EnvV1 where
  issuesResult : Except SyncError (List Issue)
  labelsResult : Except SyncError (List Label)
  mappingResult : Except SyncError (List (String × ProjectLabelMapping))
  updateResult : String → List String → Except SyncError (Option UpdateIssuePayload)

/-- The filter callback of the lookup-table variant: skip issues without a
project or whose project name is not in the mapping; otherwise select when
`LABEL_GROUPS.some(group => !existingLabelNames.has(projectMapping[group]))`. -/
def v1NeedsUpdate (mapping : List (String × ProjectLabelMapping)) (issue : Issue) : Bool :=
  match issue.project with
  | none => false
  | some p =>
    match lookupMapping mapping p.name with
    | none => false
    | some pm =>
      let existingLabelNames := issue.labels.map Label.name
      [pm.coreSystems, pm.coreAreas].any
        (fun group => !(existingLabelNames.contains group))

/-- The target id set of the lookup-table apply loop: the
`for (const group of LABEL_GROUPS)` adds, as a fold over the two group
names. -/
def v1TargetLabelIds (m : List (String × String)) (pm : ProjectLabelMapping)
    (issue : Issue) : List String :=
  [pm.coreSystems, pm.coreAreas].foldl
    (fun ids group => addLabelIdIfFound ids (lookupId m group))
    (setOfList (issue.labels.map Label.id))

/-- `updateIssue` of the lookup-table variant (identical logic). -/
def updateIssueV1 (env : EnvV1) (issue : Issue) (labelIds : List String) : UpdateOutcome :=
  match env.updateResult issue.id labelIds with
  | Except.error _ => UpdateOutcome.errorLogged
  | Except.ok none => UpdateOutcome.unexpectedLogged
  | Except.ok (some r) =>
    if r.success then UpdateOutcome.successLogged else UpdateOutcome.failureLogged

/-- The apply loop of the lookup-table variant (no throwing calls inside). -/
def applyV1 (env : EnvV1) (mapping : List (String × ProjectLabelMapping))
    (m : List (String × String)) : List Issue → List Event × List UpdateOutcome
  | [] => ([], [])
  | issue :: rest =>
    match issue.project with
    | none => applyV1 env mapping m rest
    | some p =>
      match lookupMapping mapping p.name with
      | none => applyV1 env mapping m rest
      | some pm =>
        let existingLabelIds := setOfList (issue.labels.map Label.id)
        let labelIdsToUpdate := v1TargetLabelIds m pm issue
        if labelIdsToUpdate.length ≠ existingLabelIds.length then
          let outcome := updateIssueV1 env issue labelIdsToUpdate
          let r := applyV1 env mapping m rest
          (Event.updateReq issue.id labelIdsToUpdate :: r.1, outcome :: r.2)
        else
          applyV1 env mapping m rest

/-- `async function syncTasks()` of `sync_v1.mts`: fetch issues, fetch
labels, and only then load the mapping document (a mapping failure is
`process.exit(1)` — the run stops, but both fetch phases already ran). -/
def syncTasksV1 (env : EnvV1) : RunResult :=
  match env.issuesResult with
  | Except.error _ => ⟨[Event.fetchIssuesReq], []⟩
  | Except.ok issues =>
    match env.labelsResult with
    | Except.error _ => ⟨[Event.fetchIssuesReq, Event.fetchLabelsReq], []⟩
    | Except.ok workspaceLabels =>
      match env.mappingResult with
      | Except.error _ =>
        ⟨[Event.fetchIssuesReq, Event.fetchLabelsReq, Event.loadMappingReq], []⟩
      | Except.ok mapping =>
        let m := buildLabelNameToId workspaceLabels
        let issuesToUpdate := issues.filter (v1NeedsUpdate mapping)
        let r := applyV1 env mapping m issuesToUpdate
        ⟨[Event.fetchIssuesReq, Event.fetchLabelsReq, Event.loadMappingReq] ++ r.1, r.2⟩


/-! The retry wrapper: success after k attempts, failure after exhaustion. -/

theorem fetchWithRetry_ok {ε α : Type} (op : Nat → Except ε α) :
    ∀ (j n s : Nat) (v : α), j + 1 ≤ n →
    (∀ i, i < j → ∃ e, op (s + i) = Except.error e) →
    op (s + j) = Except.ok v →
    fetchWithRetry op n s = (Except.ok v, j) := by
  intro j
  induction j with
  | zero =>
    intro n s v _ _ hsucc
    rw [Nat.add_zero] at hsucc
    simp [fetchWithRetry, hsucc]
  | succ j ih =>
    intro n s v hn hfail hsucc
    obtain ⟨e, he⟩ := hfail 0 (Nat.succ_pos j)
    rw [Nat.add_zero] at he
    have hgt : ¬ n ≤ 1 := by omega
    have hrec := ih (n - 1) (s + 1) v (by omega)
      (fun i hi => by
        obtain ⟨e2, he2⟩ := hfail (i + 1) (by omega)
        have e1 : s + (i + 1) = s + 1 + i := by omega
        exact ⟨e2, by rwa [e1] at he2⟩)
      (by
        have e1 : s + (j + 1) = s + 1 + j := by omega
        rwa [e1] at hsucc)
    rw [fetchWithRetry, he]
    simp [dif_neg hgt, hrec]

theorem fetchWithRetry_err {ε α : Type} (op : Nat → Except ε α) :
    ∀ (n : Nat) (f : Nat → ε) (s : Nat), 1 ≤ n →
    (∀ i, i < n → op (s + i) = Except.error (f i)) →
    fetchWithRetry op n s = (Except.error (f (n - 1)), n - 1) := by
  intro n
  induction n with
  | zero => intro f s h; omega
  | succ m ih =>
    intro f s _ hfail
    have h0 : op s = Except.error (f 0) := by
      have := hfail 0 (by omega)
      rwa [Nat.add_zero] at this
    cases m with
    | zero => rw [fetchWithRetry, h0]; simp
    | succ m2 =>
      have hgt : ¬ m2 + 1 + 1 ≤ 1 := by omega
      have hrec := ih (fun i => f (i + 1)) (s + 1) (by omega)
        (fun i hi => by
          have h := hfail (i + 1) (by omega)
          have e1 : s + (i + 1) = s + 1 + i := by omega
          rwa [e1] at h)
      rw [fetchWithRetry, h0]
      simp only [dif_neg hgt, Nat.add_sub_cancel] at *
      rw [hrec]

/-- Claim C6: for any fallible operation and attempt budget `n` (the
source default `RETRY_ATTEMPTS` is 3), the retry wrapper returns the
success value of the operation if some attempt `k ≤ n` succeeds, after exactly
`k - 1` intervening fixed delays, and after `n` consecutive failures it
re-raises the `n`-th failure unchanged (with `n - 1` delays in between). -/
theorem claimC6_retry_contract {ε α : Type} (op : Nat → Except ε α) (f : Nat → ε)
    (n k : Nat) (v : α) :
    RETRY_ATTEMPTS = 3
    ∧ (1 ≤ k → k ≤ n → (∀ i, i + 1 < k → op i = Except.error (f i)) →
        op (k - 1) = Except.ok v →
        fetchWithRetry op n 0 = (Except.ok v, k - 1))
    ∧ (1 ≤ n → (∀ i, i < n → op i = Except.error (f i)) →
        fetchWithRetry op n 0 = (Except.error (f (n - 1)), n - 1)) := by
  refine ⟨rfl, ?_, ?_⟩
  · intro hk1 hkn hfail hsucc
    exact fetchWithRetry_ok op (k - 1) n 0 v (by omega)
      (fun i hi => ⟨f i, by simpa using hfail i (by omega)⟩)
      (by simpa using hsucc)
  · intro hn hfail
    exact fetchWithRetry_err op n f 0 hn (fun i hi => by simpa using hfail i hi)

/-- Witness for C6: an operation failing twice then succeeding, with
`attempts = 3`, returns the success value after exactly 2 delays. -/
theorem claimC6_retry_contract_witness :
    fetchWithRetry (fun i => if i < 2 then (Except.error 7 : Except Nat Nat) else Except.ok 42) 3 0
      = (Except.ok 42, 2) :=
  (claimC6_retry_contract (fun i => if i < 2 then (Except.error 7 : Except Nat Nat) else Except.ok 42)
      (fun _ => 7) 3 3 42).2.1
    (by omega) (by omega)
    (fun i hi => by
      have h2 : i < 2 := by omega
      simp [h2])
    (by norm_num)

/-! Ordered-set and name-to-id map lemmas. -/

theorem mem_setAdd {l : List String} {x y : String} : y ∈ setAdd l x ↔ y ∈ l ∨ y = x := by
  unfold setAdd
  split
  · rename_i h
    constructor
    · exact Or.inl
    · rintro (hy | rfl)
      · exact hy
      · exact h
  · simp

theorem subset_setAdd (l : List String) (x : String) : l ⊆ setAdd l x :=
  fun _ hy => mem_setAdd.mpr (Or.inl hy)

theorem nodup_setAdd {l : List String} (x : String) (h : l.Nodup) : (setAdd l x).Nodup := by
  unfold setAdd
  split
  · exact h
  · rename_i hx
    exact List.Nodup.append h (List.nodup_singleton x)
      (fun a ha hb => by
        rw [List.mem_singleton] at hb
        subst hb
        exact hx ha)

theorem mem_foldl_setAdd (xs : List String) :
    ∀ (acc : List String) (y : String), y ∈ xs.foldl setAdd acc ↔ y ∈ acc ∨ y ∈ xs := by
  induction xs with
  | nil => intro acc y; simp
  | cons x xs ih =>
    intro acc y
    simp only [List.foldl_cons]
    rw [ih, mem_setAdd, List.mem_cons]
    tauto

theorem nodup_foldl_setAdd (xs : List String) :
    ∀ acc : List String, acc.Nodup → (xs.foldl setAdd acc).Nodup := by
  induction xs with
  | nil => intro acc h; simpa using h
  | cons x xs ih => intro acc h; exact ih _ (nodup_setAdd x h)

theorem mem_setOfList {xs : List String} {y : String} : y ∈ setOfList xs ↔ y ∈ xs := by
  unfold setOfList
  rw [mem_foldl_setAdd]
  simp

theorem nodup_setOfList (xs : List String) : (setOfList xs).Nodup :=
  nodup_foldl_setAdd xs [] List.nodup_nil

theorem mem_addLabelIdIfFound {ids : List String} {o : Option String} {y : String} :
    y ∈ addLabelIdIfFound ids o ↔ y ∈ ids ∨ (o = some y ∧ y ≠ "") := by
  cases o with
  | none => simp [addLabelIdIfFound]
  | some i =>
    simp only [addLabelIdIfFound]
    split
    · rename_i h
      subst h
      constructor
      · exact Or.inl
      · rintro (hy | ⟨heq, hne⟩)
        · exact hy
        · injection heq with h2
          exact absurd h2.symm hne
    · rename_i h
      rw [mem_setAdd]
      constructor
      · rintro (hy | rfl)
        · exact Or.inl hy
        · exact Or.inr ⟨rfl, h⟩
      · rintro (hy | ⟨heq, _⟩)
        · exact Or.inl hy
        · injection heq with h2
          exact Or.inr h2.symm

theorem subset_addLabelIdIfFound (ids : List String) (o : Option String) :
    ids ⊆ addLabelIdIfFound ids o :=
  fun _ hy => mem_addLabelIdIfFound.mpr (Or.inl hy)

theorem nodup_addLabelIdIfFound {ids : List String} (o : Option String) (h : ids.Nodup) :
    (addLabelIdIfFound ids o).Nodup := by
  cases o with
  | none => exact h
  | some i =>
    simp only [addLabelIdIfFound]
    split
    · exact h
    · exact nodup_setAdd i h

theorem mem_assocSet {m : List (String × String)} {k v : String} {p : String × String}
    (h : p ∈ assocSet m k v) : p ∈ m ∨ p = (k, v) := by
  unfold assocSet at h
  split at h
  · rcases List.mem_map.mp h with ⟨q, hq, heq⟩
    by_cases hqk : (q.1 == k) = true
    · rw [if_pos hqk] at heq
      exact Or.inr heq.symm
    · rw [if_neg hqk] at heq
      subst heq
      exact Or.inl hq
  · rcases List.mem_append.mp h with h1 | h2
    · exact Or.inl h1
    · rw [List.mem_singleton] at h2
      exact Or.inr h2

theorem foldl_assocSet_mem (ls : List Label) :
    ∀ (acc : List (String × String)) (p : String × String),
      p ∈ ls.foldl (fun acc label => assocSet acc label.name label.id) acc →
      p ∈ acc ∨ ∃ l ∈ ls, l.name = p.1 ∧ l.id = p.2 := by
  induction ls with
  | nil => intro acc p h; exact Or.inl (by simpa using h)
  | cons lab ls ih =>
    intro acc p h
    simp only [List.foldl_cons] at h
    rcases ih _ p h with hacc | ⟨l, hl, h1, h2⟩
    · rcases mem_assocSet hacc with hm | rfl
      · exact Or.inl hm
      · exact Or.inr ⟨lab, List.mem_cons_self lab ls, rfl, rfl⟩
    · exact Or.inr ⟨l, List.mem_cons_of_mem _ hl, h1, h2⟩

theorem buildLabelNameToId_mem {ls : List Label} {p : String × String}
    (hp : p ∈ buildLabelNameToId ls) : ∃ l ∈ ls, l.name = p.1 ∧ l.id = p.2 := by
  rcases foldl_assocSet_mem ls [] p (by simpa [buildLabelNameToId] using hp) with h | h
  · simp at h
  · exact h

theorem lookupId_mem {m : List (String × String)} {k v : String}
    (h : lookupId m k = some v) : ∃ p ∈ m, p.1 = k ∧ p.2 = v := by
  unfold lookupId at h
  cases hf : m.find? (fun p => p.1 == k) with
  | none => rw [hf] at h; cases h
  | some q =>
    rw [hf] at h
    injection h with h2
    have hq := List.mem_of_find?_eq_some hf
    have hpr := List.find?_some hf
    exact ⟨q, hq, by simpa using hpr, h2⟩

theorem lookupId_build_ne_empty {ls : List Label} (hls : ∀ l ∈ ls, l.id ≠ "")
    {k v : String} (h : lookupId (buildLabelNameToId ls) k = some v) : v ≠ "" := by
  obtain ⟨p, hp, _, hv⟩ := lookupId_mem h
  obtain ⟨l, hl, _, h2⟩ := buildLabelNameToId_mem hp
  rw [← hv, ← h2]
  exact hls l hl

/-- Every update request emitted by the static apply loop carries exactly
the target label-id set computed for some planned issue with a resolvable
project. -/
theorem applyStatic_updateReq (env : EnvStatic) (m : List (String × String)) :
    ∀ (issues : List Issue) (i : String) (ids : List String),
    Event.updateReq i ids ∈ (applyStatic env m issues).1 →
    ∃ issue p sys area, issue ∈ issues ∧ issue.id = i ∧ issue.project = some p
      ∧ p.identifier ≠ ""
      ∧ inferCoreSystemsLabel p.identifier = Except.ok sys
      ∧ inferCoreAreasLabel p.identifier = Except.ok area
      ∧ ids = staticTargetLabelIds m issue sys area := by
  intro issues
  induction issues with
  | nil => intro i ids h; simp [applyStatic] at h
  | cons issue rest ih =>
    intro i ids h
    have lift : (∃ issue2 p sys area, issue2 ∈ rest ∧ issue2.id = i ∧
        issue2.project = some p ∧ p.identifier ≠ ""
        ∧ inferCoreSystemsLabel p.identifier = Except.ok sys
        ∧ inferCoreAreasLabel p.identifier = Except.ok area
        ∧ ids = staticTargetLabelIds m issue2 sys area) →
        ∃ issue2 p sys area, issue2 ∈ issue :: rest ∧ issue2.id = i ∧
        issue2.project = some p ∧ p.identifier ≠ ""
        ∧ inferCoreSystemsLabel p.identifier = Except.ok sys
        ∧ inferCoreAreasLabel p.identifier = Except.ok area
        ∧ ids = staticTargetLabelIds m issue2 sys area := by
      rintro ⟨issue2, p, sys, area, hmem, hrest⟩
      exact ⟨issue2, p, sys, area, List.mem_cons_of_mem _ hmem, hrest⟩
    cases hp : issue.project with
    | none =>
      rw [show applyStatic env m (issue :: rest) = applyStatic env m rest by
        simp [applyStatic, hp]] at h
      exact lift (ih i ids h)
    | some p =>
      by_cases hid : p.identifier = ""
      · rw [show applyStatic env m (issue :: rest) = applyStatic env m rest by
          simp [applyStatic, hp, hid]] at h
        exact lift (ih i ids h)
      · cases hsys : inferCoreSystemsLabel p.identifier with
        | error e =>
          rw [show applyStatic env m (issue :: rest) = ([], [], some e) by
            simp [applyStatic, hp, hid, hsys]] at h
          simp at h
        | ok sys =>
          cases harea : inferCoreAreasLabel p.identifier with
          | error e =>
            rw [show applyStatic env m (issue :: rest) = ([], [], some e) by
              simp [applyStatic, hp, hid, hsys, harea]] at h
            simp at h
          | ok area =>
            by_cases hlen : (staticTargetLabelIds m issue sys area).length ≠
                (setOfList (issue.labels.map Label.id)).length
            · rw [show (applyStatic env m (issue :: rest)).1 =
                  Event.updateReq issue.id (staticTargetLabelIds m issue sys area) ::
                    (applyStatic env m rest).1 by
                simp [applyStatic, hp, hid, hsys, harea, if_pos hlen]] at h
              rcases List.mem_cons.mp h with heq | htail
              · injection heq with h1 h2
                exact ⟨issue, p, sys, area, List.mem_cons_self issue rest, h1.symm, hp,
                  hid, hsys, harea, h2⟩
              · exact lift (ih i ids htail)
            · rw [show applyStatic env m (issue :: rest) = applyStatic env m rest by
                simp [applyStatic, hp, hid, hsys, harea, if_neg hlen]] at h
              exact lift (ih i ids h)

/-- Claim C1: for every issue, the label-id list submitted to the update
operation is the existing label-id set extended by exactly the ids of the
required labels that resolve (to a truthy id) in the workspace name-to-id
map — a superset of the existing set, with unresolved required names
contributing nothing.  The lookup-table variant builds the same target set
from its two mapped names, and at run level every emitted update request
carries such a target set. -/
theorem claimC1_target_is_union (m : List (String × String)) (issue : Issue)
    (coreSystemsLabel coreAreasLabel : String)
    (hm : ∀ k v, lookupId m k = some v → v ≠ "") :
    (∀ x ∈ setOfList (issue.labels.map Label.id),
        x ∈ staticTargetLabelIds m issue coreSystemsLabel coreAreasLabel)
    ∧ (∀ x, x ∈ staticTargetLabelIds m issue coreSystemsLabel coreAreasLabel ↔
        (x ∈ setOfList (issue.labels.map Label.id)
          ∨ lookupId m coreSystemsLabel = some x
          ∨ lookupId m coreAreasLabel = some x))
    ∧ (∀ pm : ProjectLabelMapping,
        v1TargetLabelIds m pm issue = staticTargetLabelIds m issue pm.coreSystems pm.coreAreas)
    ∧ (∀ (env : EnvStatic) (issues : List Issue) (i : String) (ids : List String),
        Event.updateReq i ids ∈ (applyStatic env m issues).1 →
        ∃ issue2 p sys area, issue2 ∈ issues ∧ issue2.id = i ∧ issue2.project = some p
          ∧ inferCoreSystemsLabel p.identifier = Except.ok sys
          ∧ inferCoreAreasLabel p.identifier = Except.ok area
          ∧ ids = staticTargetLabelIds m issue2 sys area) := by
  refine ⟨?_, ?_, fun pm => rfl, ?_⟩
  · intro x hx
    exact subset_addLabelIdIfFound _ _ (subset_addLabelIdIfFound _ _ hx)
  · intro x
    unfold staticTargetLabelIds
    rw [mem_addLabelIdIfFound, mem_addLabelIdIfFound]
    constructor
    · rintro ((hx | ⟨h1, _⟩) | ⟨h2, _⟩)
      · exact Or.inl hx
      · exact Or.inr (Or.inl h1)
      · exact Or.inr (Or.inr h2)
    · rintro (hx | h1 | h2)
      · exact Or.inl (Or.inl hx)
      · exact Or.inl (Or.inr ⟨h1, hm _ _ h1⟩)
      · exact Or.inr ⟨h2, hm _ _ h2⟩
  · intro env issues i ids h
    obtain ⟨issue2, p, sys, area, hmem, hi, hp, _, hsys, harea, hids⟩ :=
      applyStatic_updateReq env m issues i ids h
    exact ⟨issue2, p, sys, area, hmem, hi, hp, hsys, harea, hids⟩

/-- Concrete data shared by the claim witnesses. -/
def teamW : Team := ⟨"t1", "Team"⟩

def pW : Project := ⟨"p1", "Proj", "123.45"⟩

def labelsW : List Label := [⟨"sysid", "[100-199]"⟩]

def mW : List (String × String) := buildLabelNameToId labelsW

def issueW : Issue := ⟨"i1", "T1", "I-1", [], some pW, teamW⟩

def issueW3 : Issue :=
  ⟨"i3", "T3", "I-3", [⟨"a", "[100-199]"⟩, ⟨"b", "[23]"⟩], some pW, teamW⟩

theorem mW_lookup_ne_empty : ∀ k v, lookupId mW k = some v → v ≠ "" := by
  intro k v h
  refine lookupId_build_ne_empty ?_ h
  intro l hl
  rw [labelsW, List.mem_singleton] at hl
  subst hl
  decide

/-- Witness for C1 at a concrete map and issue. -/
theorem claimC1_target_is_union_witness :
    "a" ∈ staticTargetLabelIds mW issueW3 "[100-199]" "[23]" ↔
      ("a" ∈ setOfList (issueW3.labels.map Label.id)
        ∨ lookupId mW "[100-199]" = some "a"
        ∨ lookupId mW "[23]" = some "a") :=
  (claimC1_target_is_union mW issueW3 "[100-199]" "[23]" mW_lookup_ne_empty).2.1 "a"

/-- For duplicate-free lists, a subset relation turns the length comparison
into strict containment. -/
theorem nodup_subset_length_iff {a b : List String} (ha : a.Nodup) (hb : b.Nodup)
    (hab : a ⊆ b) : b.length ≠ a.length ↔ ∃ x ∈ b, x ∉ a := by
  have hfs : a.toFinset ⊆ b.toFinset := by
    intro x hx
    rw [List.mem_toFinset] at *
    exact hab hx
  have hca : a.toFinset.card = a.length := List.toFinset_card_of_nodup ha
  have hcb : b.toFinset.card = b.length := List.toFinset_card_of_nodup hb
  constructor
  · intro hne
    by_contra hex
    push_neg at hex
    have hba : b.toFinset ⊆ a.toFinset := by
      intro x hx
      rw [List.mem_toFinset] at *
      exact hex x hx
    have h1 := Finset.card_le_card hfs
    have h2 := Finset.card_le_card hba
    omega
  · rintro ⟨x, hxb, hxa⟩
    have hss : a.toFinset ⊂ b.toFinset :=
      (Finset.ssubset_iff_of_subset hfs).mpr
        ⟨x, List.mem_toFinset.mpr hxb, fun hc => hxa (List.mem_toFinset.mp hc)⟩
    have := Finset.card_lt_card hss
    omega

theorem nodup_staticTargetLabelIds (m : List (String × String)) (issue : Issue)
    (sys area : String) : (staticTargetLabelIds m issue sys area).Nodup :=
  nodup_addLabelIdIfFound _ (nodup_addLabelIdIfFound _ (nodup_setOfList _))

theorem subset_staticTargetLabelIds (m : List (String × String)) (issue : Issue)
    (sys area : String) :
    setOfList (issue.labels.map Label.id) ⊆ staticTargetLabelIds m issue sys area :=
  fun _ hx => subset_addLabelIdIfFound _ _ (subset_addLabelIdIfFound _ _ hx)

/-- Claim C8: a selected issue is submitted for mutation exactly when the
target label-id set has a different size from the existing label-id set,
and — the target being a duplicate-free superset of the existing set — this
size test is equivalent to the target strictly containing the existing
set. -/
theorem claimC8_submit_iff_strict_superset (env : EnvStatic) (m : List (String × String))
    (issue : Issue) (p : Project) (sys area : String)
    (hp : issue.project = some p) (hid : p.identifier ≠ "")
    (hsys : inferCoreSystemsLabel p.identifier = Except.ok sys)
    (harea : inferCoreAreasLabel p.identifier = Except.ok area) :
    ((staticTargetLabelIds m issue sys area).length ≠
        (setOfList (issue.labels.map Label.id)).length ↔
      ∃ x ∈ staticTargetLabelIds m issue sys area,
        x ∉ setOfList (issue.labels.map Label.id))
    ∧ ((applyStatic env m [issue]).1 ≠ [] ↔
        (staticTargetLabelIds m issue sys area).length ≠
          (setOfList (issue.labels.map Label.id)).length) := by
  constructor
  · exact nodup_subset_length_iff (nodup_setOfList _)
      (nodup_staticTargetLabelIds m issue sys area)
      (subset_staticTargetLabelIds m issue sys area)
  · by_cases hlen : (staticTargetLabelIds m issue sys area).length ≠
        (setOfList (issue.labels.map Label.id)).length
    · rw [show (applyStatic env m [issue]).1 =
          [Event.updateReq issue.id (staticTargetLabelIds m issue sys area)] by
        simp [applyStatic, hp, hid, hsys, harea, if_pos hlen]]
      simp [hlen]
    · rw [show (applyStatic env m [issue]).1 = [] by
        simp [applyStatic, hp, hid, hsys, harea, if_neg hlen]]
      simp [hlen]

/-- Witness for C8: with one workspace label resolving the system name and
an unlabeled issue, the target set strictly exceeds the existing set and
the mutation is submitted. -/
theorem claimC8_submit_iff_strict_superset_witness :
    (applyStatic ⟨Except.ok [], Except.ok [], fun _ _ => Except.ok none⟩ mW [issueW]).1 ≠ [] :=
  (claimC8_submit_iff_strict_superset ⟨Except.ok [], Except.ok [], fun _ _ => Except.ok none⟩
      mW issueW pW "[100-199]" "[23]" rfl (by decide) rfl rfl).2.mpr (by decide)

theorem contains_eq_true_iff {l : List String} {a : String} : l.contains a = true ↔ a ∈ l := by
  simp [List.contains]

theorem contains_eq_false_iff {l : List String} {a : String} : l.contains a = false ↔ a ∉ l := by
  constructor
  · intro h hmem
    rw [contains_eq_true_iff.mpr hmem] at h
    exact Bool.noConfusion h
  · intro h
    cases hc : l.contains a with
    | false => rfl
    | true => exact absurd (contains_eq_true_iff.mp hc) h

/-- The planner predicate on a resolvable issue: an update is needed when
either inferred label name is missing from the current names. -/
theorem staticNeedsUpdate_eq (issue : Issue) (p : Project)
    (hp : issue.project = some p) (hid : p.identifier ≠ "") (sys area : String)
    (hsys : inferCoreSystemsLabel p.identifier = Except.ok sys)
    (harea : inferCoreAreasLabel p.identifier = Except.ok area) :
    staticNeedsUpdate issue = Except.ok
      (!((issue.labels.map Label.name).contains sys) ||
       !((issue.labels.map Label.name).contains area)) := by
  simp [staticNeedsUpdate, hp, hid, hsys, harea]

/-- Claim C7: the planner selects an issue with a resolvable project if and
only if some required label name is absent from its current label names;
consequently a plan over issues that all carry both required names selects
zero issues, and — the planner being a pure function of the unchanged
state — any repeated run selects zero again. -/
theorem claimC7_selection_iff (issue : Issue) (issues : List Issue)
    (hall : ∀ i ∈ issues, ∀ p, i.project = some p → ∀ sys area,
      inferCoreSystemsLabel p.identifier = Except.ok sys →
      inferCoreAreasLabel p.identifier = Except.ok area →
      sys ∈ i.labels.map Label.name ∧ area ∈ i.labels.map Label.name) :
    (staticNeedsUpdate issue = Except.ok true ↔
      ∃ p sys area, issue.project = some p ∧ p.identifier ≠ ""
        ∧ inferCoreSystemsLabel p.identifier = Except.ok sys
        ∧ inferCoreAreasLabel p.identifier = Except.ok area
        ∧ (sys ∉ issue.labels.map Label.name ∨ area ∉ issue.labels.map Label.name))
    ∧ filterE staticNeedsUpdate issues = Except.ok [] := by
  constructor
  · cases hp : issue.project with
    | none =>
      constructor
      · intro h
        rw [show staticNeedsUpdate issue = Except.ok false by
          simp [staticNeedsUpdate, hp]] at h
        simp at h
      · rintro ⟨p, sys, area, hpp, -⟩
        exact Option.noConfusion hpp
    | some p =>
      by_cases hid : p.identifier = ""
      · constructor
        · intro h
          rw [show staticNeedsUpdate issue = Except.ok false by
            simp [staticNeedsUpdate, hp, hid]] at h
          simp at h
        · rintro ⟨p2, sys, area, hpp, hne, -⟩
          injection hpp with he
          subst he
          exact absurd hid hne
      · obtain ⟨sys, hsys⟩ : ∃ l, inferCoreSystemsLabel p.identifier = Except.ok l :=
          ⟨_, inferCoreSystemsLabel_eq _ hid⟩
        obtain ⟨area, harea⟩ : ∃ l, inferCoreAreasLabel p.identifier = Except.ok l :=
          ⟨_, inferCoreAreasLabel_eq _ hid⟩
        rw [staticNeedsUpdate_eq issue p hp hid sys area hsys harea]
        constructor
        · intro h
          have hb : (!((issue.labels.map Label.name).contains sys) ||
              !((issue.labels.map Label.name).contains area)) = true := by
            injection h
          refine ⟨p, sys, area, rfl, hid, hsys, harea, ?_⟩
          rw [Bool.or_eq_true] at hb
          rcases hb with h1 | h2
          · left
            rw [Bool.not_eq_true'] at h1
            exact contains_eq_false_iff.mp h1
          · right
            rw [Bool.not_eq_true'] at h2
            exact contains_eq_false_iff.mp h2
        · rintro ⟨p2, sys2, area2, hpp, -, hsys2, harea2, hmiss⟩
          injection hpp with he
          subst he
          rw [hsys] at hsys2
          injection hsys2 with he2
          subst he2
          rw [harea] at harea2
          injection harea2 with he3
          subst he3
          have hb : (!((issue.labels.map Label.name).contains sys) ||
              !((issue.labels.map Label.name).contains area)) = true := by
            rw [Bool.or_eq_true]
            rcases hmiss with hm | hm
            · left
              rw [Bool.not_eq_true']
              exact contains_eq_false_iff.mpr hm
            · right
              rw [Bool.not_eq_true']
              exact contains_eq_false_iff.mpr hm
          rw [hb]
  · have hplan : ∀ js : List Issue,
        (∀ i ∈ js, ∀ p, i.project = some p → ∀ sys area,
          inferCoreSystemsLabel p.identifier = Except.ok sys →
          inferCoreAreasLabel p.identifier = Except.ok area →
          sys ∈ i.labels.map Label.name ∧ area ∈ i.labels.map Label.name) →
        filterE staticNeedsUpdate js = Except.ok [] := by
      intro js
      induction js with
      | nil => intro _; rfl
      | cons i rest ih =>
        intro hall2
        have hfalse : staticNeedsUpdate i = Except.ok false := by
          cases hp2 : i.project with
          | none => simp [staticNeedsUpdate, hp2]
          | some p2 =>
            by_cases hid2 : p2.identifier = ""
            · simp [staticNeedsUpdate, hp2, hid2]
            · have hsys2 := inferCoreSystemsLabel_eq p2.identifier hid2
              have harea2 := inferCoreAreasLabel_eq p2.identifier hid2
              obtain ⟨hm1, hm2⟩ := hall2 i (List.mem_cons_self i rest) p2 hp2 _ _ hsys2 harea2
              rw [staticNeedsUpdate_eq i p2 hp2 hid2 _ _ hsys2 harea2,
                contains_eq_true_iff.mpr hm1, contains_eq_true_iff.mpr hm2]
              rfl
        have hrest := ih (fun j hj => hall2 j (List.mem_cons_of_mem _ hj))
        simp [filterE, hfalse, hrest]
    exact hplan issues hall

theorem hallW3 : ∀ i ∈ [issueW3], ∀ p, i.project = some p → ∀ sys area,
    inferCoreSystemsLabel p.identifier = Except.ok sys →
    inferCoreAreasLabel p.identifier = Except.ok area →
    sys ∈ i.labels.map Label.name ∧ area ∈ i.labels.map Label.name := by
  intro i hi p hp sys area hsys harea
  rw [List.mem_singleton] at hi
  subst hi
  rw [show issueW3.project = some pW from rfl] at hp
  injection hp with he
  subst he
  rw [show inferCoreSystemsLabel pW.identifier = Except.ok "[100-199]" from rfl] at hsys
  injection hsys with h1
  subst h1
  rw [show inferCoreAreasLabel pW.identifier = Except.ok "[23]" from rfl] at harea
  injection harea with h2
  subst h2
  exact ⟨by decide, by decide⟩

/-- Witness for C7: an unlabeled issue is selected; a fully-labeled issue
set yields an empty plan. -/
theorem claimC7_selection_iff_witness :
    staticNeedsUpdate issueW = Except.ok true
    ∧ filterE staticNeedsUpdate [issueW3] = Except.ok [] :=
  ⟨(claimC7_selection_iff issueW [issueW3] hallW3).1.mpr
      ⟨pW, "[100-199]", "[23]", rfl, by decide, rfl, rfl, Or.inl (by decide)⟩,
   (claimC7_selection_iff issueW [issueW3] hallW3).2⟩

/-! Run-level lemmas: the requests of the apply loop do not depend on update
outcomes, every emitted request is an update request, and each submitted
update is matched by a logged outcome. -/

theorem applyStatic_events_eq (env env2 : EnvStatic) (m : List (String × String)) :
    ∀ issues : List Issue, (applyStatic env m issues).1 = (applyStatic env2 m issues).1 := by
  intro issues
  induction issues with
  | nil => rfl
  | cons issue rest ih =>
    cases hp : issue.project with
    | none => simp [applyStatic, hp, ih]
    | some p =>
      by_cases hid : p.identifier = ""
      · simp [applyStatic, hp, hid, ih]
      · cases hsys : inferCoreSystemsLabel p.identifier with
        | error e => simp [applyStatic, hp, hid, hsys]
        | ok sys =>
          cases harea : inferCoreAreasLabel p.identifier with
          | error e => simp [applyStatic, hp, hid, hsys, harea]
          | ok area =>
            by_cases hlen : (staticTargetLabelIds m issue sys area).length ≠
                (setOfList (issue.labels.map Label.id)).length
            · simp [applyStatic, hp, hid, hsys, harea, if_pos hlen, ih]
            · simp [applyStatic, hp, hid, hsys, harea, if_neg hlen, ih]

theorem applyStatic_events_updates (env : EnvStatic) (m : List (String × String)) :
    ∀ issues : List Issue, ∀ ev ∈ (applyStatic env m issues).1, ev.isUpdateReq = true := by
  intro issues
  induction issues with
  | nil => intro ev hev; simp [applyStatic] at hev
  | cons issue rest ih =>
    intro ev hev
    cases hp : issue.project with
    | none =>
      rw [show applyStatic env m (issue :: rest) = applyStatic env m rest by
        simp [applyStatic, hp]] at hev
      exact ih ev hev
    | some p =>
      by_cases hid : p.identifier = ""
      · rw [show applyStatic env m (issue :: rest) = applyStatic env m rest by
          simp [applyStatic, hp, hid]] at hev
        exact ih ev hev
      · cases hsys : inferCoreSystemsLabel p.identifier with
        | error e =>
          rw [show applyStatic env m (issue :: rest) = ([], [], some e) by
            simp [applyStatic, hp, hid, hsys]] at hev
          simp at hev
        | ok sys =>
          cases harea : inferCoreAreasLabel p.identifier with
          | error e =>
            rw [show applyStatic env m (issue :: rest) = ([], [], some e) by
              simp [applyStatic, hp, hid, hsys, harea]] at hev
            simp at hev
          | ok area =>
            by_cases hlen : (staticTargetLabelIds m issue sys area).length ≠
                (setOfList (issue.labels.map Label.id)).length
            · rw [show (applyStatic env m (issue :: rest)).1 =
                  Event.updateReq issue.id (staticTargetLabelIds m issue sys area) ::
                    (applyStatic env m rest).1 by
                simp [applyStatic, hp, hid, hsys, harea, if_pos hlen]] at hev
              rcases List.mem_cons.mp hev with heq | htail
              · subst heq; rfl
              · exact ih ev htail
            · rw [show applyStatic env m (issue :: rest) = applyStatic env m rest by
                simp [applyStatic, hp, hid, hsys, harea, if_neg hlen]] at hev
              exact ih ev hev

theorem applyStatic_outcomes_length (env : EnvStatic) (m : List (String × String)) :
    ∀ issues : List Issue,
      (applyStatic env m issues).2.1.length = (updateEvents (applyStatic env m issues).1).length := by
  intro issues
  induction issues with
  | nil => rfl
  | cons issue rest ih =>
    cases hp : issue.project with
    | none => simpa [applyStatic, hp] using ih
    | some p =>
      by_cases hid : p.identifier = ""
      · simpa [applyStatic, hp, hid] using ih
      · cases hsys : inferCoreSystemsLabel p.identifier with
        | error e => simp [applyStatic, hp, hid, hsys, updateEvents]
        | ok sys =>
          cases harea : inferCoreAreasLabel p.identifier with
          | error e => simp [applyStatic, hp, hid, hsys, harea, updateEvents]
          | ok area =>
            by_cases hlen : (staticTargetLabelIds m issue sys area).length ≠
                (setOfList (issue.labels.map Label.id)).length
            · rw [show (applyStatic env m (issue :: rest)) =
                  (Event.updateReq issue.id (staticTargetLabelIds m issue sys area) ::
                      (applyStatic env m rest).1,
                    updateIssue env issue (staticTargetLabelIds m issue sys area) ::
                      (applyStatic env m rest).2.1,
                    (applyStatic env m rest).2.2) by
                simp [applyStatic, hp, hid, hsys, harea, if_pos hlen]]
              simp only [updateEvents, List.filter_cons]
              simp [Event.isUpdateReq, ih, updateEvents]
            · rw [show applyStatic env m (issue :: rest) = applyStatic env m rest by
                simp [applyStatic, hp, hid, hsys, harea, if_neg hlen]]
              exact ih

/-- Claim C2: a fetch-phase failure (issues or labels) ends the run with
zero update requests attempted, while per-issue update outcomes never
influence which updates are attempted: two environments agreeing on the
fetch results produce identical request traces, and every submitted update
is matched by a logged outcome. -/
theorem claimC2_fetch_fatal_update_local (env env2 : EnvStatic)
    (hIss : env.issuesResult = env2.issuesResult)
    (hLab : env.labelsResult = env2.labelsResult) :
    ((∃ e, env.issuesResult = Except.error e) ∨ (∃ e, env.labelsResult = Except.error e) →
      updateEvents (syncTasksStatic env).events = [])
    ∧ (syncTasksStatic env).events = (syncTasksStatic env2).events
    ∧ (syncTasksStatic env).outcomes.length =
        (updateEvents (syncTasksStatic env).events).length := by
  refine ⟨?_, ?_, ?_⟩
  · rintro (⟨e, he⟩ | ⟨e, he⟩)
    · simp [syncTasksStatic, he, updateEvents, Event.isUpdateReq]
    · cases hi : env.issuesResult with
      | error e2 => simp [syncTasksStatic, hi, updateEvents, Event.isUpdateReq]
      | ok issues => simp [syncTasksStatic, hi, he, updateEvents, Event.isUpdateReq]
  · cases hi : env.issuesResult with
    | error e =>
      have hi2 : env2.issuesResult = Except.error e := by rw [← hIss]; exact hi
      simp [syncTasksStatic, hi, hi2]
    | ok issues =>
      have hi2 : env2.issuesResult = Except.ok issues := by rw [← hIss]; exact hi
      cases hl : env.labelsResult with
      | error e =>
        have hl2 : env2.labelsResult = Except.error e := by rw [← hLab]; exact hl
        simp [syncTasksStatic, hi, hi2, hl, hl2]
      | ok ls =>
        have hl2 : env2.labelsResult = Except.ok ls := by rw [← hLab]; exact hl
        cases hf : filterE staticNeedsUpdate issues with
        | error e => simp [syncTasksStatic, hi, hi2, hl, hl2, hf]
        | ok planned =>
          simp [syncTasksStatic, hi, hi2, hl, hl2, hf,
            applyStatic_events_eq env env2 (buildLabelNameToId ls) planned]
  · cases hi : env.issuesResult with
    | error e => simp [syncTasksStatic, hi, updateEvents, Event.isUpdateReq]
    | ok issues =>
      cases hl : env.labelsResult with
      | error e => simp [syncTasksStatic, hi, hl, updateEvents, Event.isUpdateReq]
      | ok ls =>
        cases hf : filterE staticNeedsUpdate issues with
        | error e => simp [syncTasksStatic, hi, hl, hf, updateEvents, Event.isUpdateReq]
        | ok planned =>
          have h := applyStatic_outcomes_length env (buildLabelNameToId ls) planned
          simp only [updateEvents] at h
          simp [syncTasksStatic, hi, hl, hf, updateEvents, List.filter_append,
            Event.isUpdateReq, h]

def envErr : EnvStatic :=
  ⟨Except.error SyncError.graphqlError, Except.ok [], fun _ _ => Except.ok none⟩

def envErr2 : EnvStatic :=
  ⟨Except.error SyncError.graphqlError, Except.ok [],
    fun _ _ => Except.error SyncError.graphqlError⟩

/-- Witness for C2: an issue-fetch failure yields a trace with no update
requests, and the trace is unchanged under a different update oracle. -/
theorem claimC2_fetch_fatal_update_local_witness :
    updateEvents (syncTasksStatic envErr).events = []
    ∧ (syncTasksStatic envErr).events = (syncTasksStatic envErr2).events :=
  ⟨(claimC2_fetch_fatal_update_local envErr envErr2 rfl rfl).1
      (Or.inl ⟨SyncError.graphqlError, rfl⟩),
   (claimC2_fetch_fatal_update_local envErr envErr2 rfl rfl).2.1⟩

def envV1Map : EnvV1 :=
  ⟨Except.ok [], Except.ok [], Except.error SyncError.mappingLoadError,
    fun _ _ => Except.ok none⟩

/-- Claim C9 counterexample: in the lookup-table variant the mapping
document is loaded only after both fetch phases, so a run whose mapping
cannot be loaded has already issued the issue-list and label-list
requests — network activity does occur. -/
theorem claimC9_counterexample :
    envV1Map.mappingResult = Except.error SyncError.mappingLoadError
    ∧ (syncTasksV1 envV1Map).events =
        [Event.fetchIssuesReq, Event.fetchLabelsReq, Event.loadMappingReq]
    ∧ Event.fetchIssuesReq ∈ (syncTasksV1 envV1Map).events
    ∧ Event.fetchLabelsReq ∈ (syncTasksV1 envV1Map).events := by
  refine ⟨rfl, rfl, ?_, ?_⟩
  · rw [show (syncTasksV1 envV1Map).events =
        [Event.fetchIssuesReq, Event.fetchLabelsReq, Event.loadMappingReq] from rfl]
    simp
  · rw [show (syncTasksV1 envV1Map).events =
        [Event.fetchIssuesReq, Event.fetchLabelsReq, Event.loadMappingReq] from rfl]
    simp

/-- Claim C9 (amended): a missing or unparseable mapping document is fatal —
the run stops with zero update requests issued — but the mapping is loaded
only after the issue-list and label-list fetches, so those requests are
issued before the abort. -/
theorem claimC9_mapping_fatal_after_fetch (env : EnvV1) (e : SyncError)
    (h : env.mappingResult = Except.error e) :
    updateEvents (syncTasksV1 env).events = []
    ∧ (∀ issues ls, env.issuesResult = Except.ok issues → env.labelsResult = Except.ok ls →
        (syncTasksV1 env).events =
          [Event.fetchIssuesReq, Event.fetchLabelsReq, Event.loadMappingReq]) := by
  constructor
  · cases hi : env.issuesResult with
    | error e2 => simp [syncTasksV1, hi, updateEvents, Event.isUpdateReq]
    | ok issues =>
      cases hl : env.labelsResult with
      | error e2 => simp [syncTasksV1, hi, hl, updateEvents, Event.isUpdateReq]
      | ok ls => simp [syncTasksV1, hi, hl, h, updateEvents, Event.isUpdateReq]
  · intro issues ls hi hl
    simp [syncTasksV1, hi, hl, h]

/-- Witness for the amended C9 at a concrete environment. -/
theorem claimC9_mapping_fatal_after_fetch_witness :
    updateEvents (syncTasksV1 envV1Map).events = [] :=
  (claimC9_mapping_fatal_after_fetch envV1Map SyncError.mappingLoadError rfl).1

theorem isFetchIssuesReq_eq_false {ev : Event} (h : ev.isUpdateReq = true) :
    ev.isFetchIssuesReq = false := by
  cases ev with
  | updateReq i ids => rfl
  | fetchIssuesReq => exact Bool.noConfusion h
  | fetchLabelsReq => rfl
  | loadMappingReq => rfl

theorem syncTasksStatic_one_fetchIssues (env : EnvStatic) :
    ((syncTasksStatic env).events.filter Event.isFetchIssuesReq).length = 1 := by
  cases hi : env.issuesResult with
  | error e => simp [syncTasksStatic, hi, Event.isFetchIssuesReq]
  | ok issues =>
    cases hl : env.labelsResult with
    | error e => simp [syncTasksStatic, hi, hl, Event.isFetchIssuesReq]
    | ok ls =>
      cases hf : filterE staticNeedsUpdate issues with
      | error e => simp [syncTasksStatic, hi, hl, hf, Event.isFetchIssuesReq]
      | ok planned =>
        have hupd := applyStatic_events_updates env (buildLabelNameToId ls) planned
        have hnil : (applyStatic env (buildLabelNameToId ls) planned).1.filter
            Event.isFetchIssuesReq = [] := by
          rw [List.filter_eq_nil_iff]
          intro a ha
          simp [isFetchIssuesReq_eq_false (hupd a ha)]
        simp [syncTasksStatic, hi, hl, hf, List.filter_append, hnil, Event.isFetchIssuesReq]

/-- Claim C10: the static-variant entry point invokes `syncTasks` twice,
so one process run performs two full reconciliation passes — its trace is
two run traces in sequence and contains exactly two issue-list fetch
phases. -/
theorem claimC10_two_passes (env : EnvStatic) :
    mainStatic env = (syncTasksStatic env).events ++ (syncTasksStatic env).events
    ∧ ((mainStatic env).filter Event.isFetchIssuesReq).length = 2 := by
  refine ⟨rfl, ?_⟩
  have h := syncTasksStatic_one_fetchIssues env
  simp [mainStatic, List.filter_append, h]
